import Mathlib

/-!
Verification development for the iota.go transaction/ledger object model.

Shallow embedding of:
* `output_foundry.go` — the `FoundryOutput` state-transition validation
  functions (`ValidateStateTransition`, `checkStateGenesisTransition`,
  `checkSerialNumberAgainstAliasFoundries`, `checkStateChangeTransition`),
  the `ID` derivation and `FoundryID.FoundrySerialNumber`, and the binary
  serialization layout of a foundry output.
* the signed-transaction builder (`SignedTransactionPayloadBuilder.Build`):
  the unlock-block construction loop with signature deduplication via
  reference unlock blocks, and the canonicalization sort of inputs/outputs.

Machine integers are modelled as `Nat` with explicit bounds hypotheses where
overflow matters (`uint32` serial numbers, single bytes); `big.Int` fields
(`CirculatingSupply`, `MaximumSupply`, native-token sums) are modelled as
`Int`. Byte strings are `List Nat`. Fallible operations return `Except` or
an explicit result type; Go panics (caller-contract violations) are a
distinguished `fatal` result, separate from returned errors.
-/

/-! ### Bytes and integer encodings -/

/-- Little-endian encoding of a `uint32` (`binary.LittleEndian.PutUint32`):
four bytes, least significant first. -/
def uint32LE (n : Nat) : List Nat :=
  [n % 256, n / 256 % 256, n / 65536 % 256, n / 16777216 % 256]

/-- Little-endian encoding of a `uint64` (`binary.LittleEndian.PutUint64`). -/
def uint64LE (n : Nat) : List Nat :=
  [n % 256, n / 256 % 256, n / 65536 % 256, n / 16777216 % 256,
   n / 4294967296 % 256, n / 1099511627776 % 256,
   n / 281474976710656 % 256, n / 72057594037927936 % 256]

/-- Little-endian base-256 digits of `n`, padded/truncated to `k` bytes. -/
def natToLEBytes : Nat → Nat → List Nat
  | 0, _ => []
  | k + 1, n => n % 256 :: natToLEBytes k (n / 256)

/-- Decode a little-endian byte list into a natural number. -/
def leBytesToNat : List Nat → Nat
  | [] => 0
  | b :: rest => b + 256 * leBytesToNat rest

/-- Decode of `binary.LittleEndian.Uint32` over the first four entries of a
byte list (missing entries read as zero). -/
def readUint32LEAt (bs : List Nat) : Nat :=
  bs.getD 0 0 + 256 * bs.getD 1 0 + 65536 * bs.getD 2 0 + 16777216 * bs.getD 3 0

/-- Association-list lookup, modelling a Go map read (`m[k]`, comma-ok form). -/
def alookup {κ ν : Type} [DecidableEq κ] : List (κ × ν) → κ → Option ν
  | [], _ => none
  | (k, v) :: rest, key => if k = key then some v else alookup rest key

/-- Models `bytes.Compare(x, y) < 0`: lexicographic byte order, a strict
prefix ordering before the longer string. -/
def bytesLt : List Nat → List Nat → Bool
  | _, [] => false
  | [], _ :: _ => true
  | a :: as, b :: bs => if a < b then true else if b < a then false else bytesLt as bs

/-! ### Data model: addresses, outputs, working set

From `output_foundry.go` (package `iotago`). `AliasAddress` is the
controller address held by the foundry's single mandatory
`ImmutableAliasUnlockCondition`; its serialization is the address type byte
followed by the fixed-length alias ID (20 bytes,
`AliasAddressSerializedBytesSize = 21`). -/

/-- An alias address: the 20-byte alias ID. -/
structure AliasAddress where
  aliasID : List Nat
deriving DecidableEq, Repr

/-- Address type discriminant of an alias address (`AddressAlias`). -/
def aliasAddressTypeByte : Nat := 8

/-- Models `AliasAddress.Serialize` with no validation: type byte then the alias ID
bytes. Serialization of this fixed-size address cannot fail. -/
def serializeAliasAddress (a : AliasAddress) : List Nat :=
  aliasAddressTypeByte :: a.aliasID

attribute [ext] AliasAddress

/-- A metadata feature block, modelled by its data bytes; a foundry output
carries at most one (mutable) and at most one immutable such block. -/
abbrev FeatBlock : Type := List Nat

/-- A native token entry: 38-byte `NativeTokenID` bytes and an amount
(`*big.Int`, always non-negative in wire form). -/
abbrev NativeToken : Type := List Nat × Int

/-- Models `FoundryOutput` from `output_foundry.go`. `ident` is the alias address of
the single mandatory `ImmutableAliasUnlockCondition` (what `f.Ident()`
returns); `tokenSchemeType` is `f.TokenScheme.Type()` (a single byte —
the simple token scheme is the only variant). -/
structure FoundryOutput where
  amount : Nat
  nativeTokens : List NativeToken
  serialNumber : Nat
  tokenTag : List Nat
  circulatingSupply : Int
  maximumSupply : Int
  tokenSchemeType : Nat
  ident : AliasAddress
  blocks : List FeatBlock
  immutableBlocks : List FeatBlock
deriving DecidableEq, Repr

/-- Models `FoundryOutput.ID`: serialized controller address, then the 4-byte
little-endian serial number, then the token-scheme type byte. In the model
the address serialization is total, so `ID` is total (`MustID` never
panics). -/
def FoundryOutput.ID (f : FoundryOutput) : List Nat :=
  serializeAliasAddress f.ident ++ uint32LE f.serialNumber ++ [f.tokenSchemeType]

/-- Models `FoundryOutput.NativeTokenID`: the foundry ID followed by the token tag. -/
def FoundryOutput.nativeTokenID (f : FoundryOutput) : List Nat :=
  FoundryOutput.ID f ++ f.tokenTag

/-- Models `FoundryID.FoundrySerialNumber`: reads the little-endian `uint32` at
offset `AliasAddressSerializedBytesSize = 21` of the foundry ID. -/
def FoundryID.foundrySerialNumber (fID : List Nat) : Nat :=
  readUint32LEAt ((fID.drop 21).take 4)

/-- Modelled from the spec: the controlling alias output, as consumed by the
foundry STVF (§4.5, §6). `AliasOutput` itself is not under `src/`; the
genesis check reads only its `FoundryCounter` field, and the working-set
maps key it by its alias ID. -/
structure AliasOutput where
  aliasID : List Nat
  foundryCounter : Nat
deriving DecidableEq, Repr

/-- A `ChainID` working-set key: either an alias ID or a foundry ID. -/
inductive ChainID where
  | aliasKey (idBytes : List Nat)
  | foundryKey (idBytes : List Nat)
deriving DecidableEq, Repr

/-- A chain-constrained output stored in the working-set maps. -/
inductive ChainOutput where
  | aliasOut (a : AliasOutput)
  | foundryOut (f : FoundryOutput)
deriving DecidableEq, Repr

/-- A transaction output as scanned by the genesis serial-number loop:
either a foundry output or some other output kind (skipped by the loop). -/
inductive TxOutput where
  | foundry (f : FoundryOutput)
  | nonFoundry (tag : Nat)
deriving DecidableEq, Repr

/-- The semantic-validation working set consumed by the foundry STVF
(`semValCtx.WorkingSet`): input/output chain maps, native-token sums and
the transaction's ordered outputs (`Tx.Essence.Outputs`). -/
structure WorkingSet where
  inChains : List (ChainID × ChainOutput)
  outChains : List (ChainID × ChainOutput)
  inNativeTokens : List (List Nat × Int)
  outNativeTokens : List (List Nat × Int)
  txOutputs : List TxOutput
deriving DecidableEq, Repr

/-- Distinguishable error outcomes of the foundry STVF. Every constructor
except `nativeTokenSupplyMismatch` models an error wrapping
`ErrInvalidChainStateTransition`; `nativeTokenSupplyMismatch` models the
wrapped native-token sum-balance error. The distinct constructors
correspond to the distinct `fmt.Errorf` sites in `output_foundry.go`. -/
inductive FoundryErr where
  | missingInAlias
  | missingOutAlias
  | serialNumberOutOfInterval
  | serialNumberOutOfOrder
  | nextNotFoundry
  | immutableBlocksMutated
  | maximumSupplyMutated
  | tokenTagMutated
  | nativeTokenSupplyMismatch
deriving DecidableEq, Repr

/-- Whether the error wraps `ErrInvalidChainStateTransition`. -/
def FoundryErr.wrapsInvalidChainStateTransition : FoundryErr → Bool
  | .nativeTokenSupplyMismatch => false
  | _ => true

/-- The spec's error-taxonomy kind `ImmutableFieldMutated` covers the three
state-change mismatches (immutable feature blocks, maximum supply, token
tag), all returned as `ErrInvalidChainStateTransition` wraps in the code. -/
def FoundryErr.isImmutableFieldMutated : FoundryErr → Bool
  | .immutableBlocksMutated => true
  | .maximumSupplyMutated => true
  | .tokenTagMutated => true
  | _ => false

/-- Result of a validation call: success, a returned error, or a fatal
caller-contract violation (a Go `panic`, distinct from returned errors). -/
inductive VResult where
  | ok
  | err (e : FoundryErr)
  | fatal
deriving DecidableEq, Repr

/-- Models `ChainTransitionType`: the closed transition-kind enum (any other tag
panics in the code and does not exist in the model). -/
inductive ChainTransitionType where
  | genesis
  | stateChange
  | destroy
deriving DecidableEq, Repr

/-- Sum for a native-token ID in a sum map, missing entries read as zero. -/
def sumOf (m : List (List Nat × Int)) (tid : List Nat) : Int :=
  (alookup m tid).getD 0

/-- Modelled from the spec: `NativeTokenSumBalancedWithDiff` is not under
`src/`; per §4.5 it fails with `NativeTokenSupplyMismatch` unless
`outputSums[tokenID] − inputSums[tokenID] == expectedDiff`, treating
missing entries as zero. -/
def nativeTokenSumBalancedWithDiff (tid : List Nat)
    (inSums outSums : List (List Nat × Int)) (diff : Int) : Bool :=
  sumOf outSums tid - sumOf inSums tid == diff

/-! ### The foundry state-transition validation functions -/

/-- The serial-number ordering loop of
`checkSerialNumberAgainstAliasFoundries` (lines 281–311): scan the
transaction outputs in order; skip non-foundries, foundries of another
controller, and non-new foundries (whose ID is among the input chains);
stop at this foundry's own ID; fail if an earlier new same-controller
foundry has a greater-or-equal serial number. -/
def serialOrderLoop (f : FoundryOutput) (inChains : List (ChainID × ChainOutput))
    (thisFoundryID : List Nat) : List TxOutput → VResult
  | [] => .ok
  | .nonFoundry _ :: rest => serialOrderLoop f inChains thisFoundryID rest
  | .foundry g :: rest =>
    if g.ident ≠ f.ident then serialOrderLoop f inChains thisFoundryID rest
    else if (alookup inChains (ChainID.foundryKey (FoundryOutput.ID g))).isSome then
      serialOrderLoop f inChains thisFoundryID rest
    else if FoundryOutput.ID g = thisFoundryID then .ok
    else if g.serialNumber ≥ f.serialNumber then .err .serialNumberOutOfOrder
    else serialOrderLoop f inChains thisFoundryID rest

/-- Models `checkSerialNumberAgainstAliasFoundries`: the new foundry's serial
number must lie strictly above the input-side foundry counter and at or
below the output-side one, then the ordering loop runs. -/
def checkSerialNumberAgainstAliasFoundries (f : FoundryOutput)
    (inAlias outAlias : AliasOutput) (ws : WorkingSet) : VResult :=
  if inAlias.foundryCounter ≥ f.serialNumber ∨ f.serialNumber > outAlias.foundryCounter then
    .err .serialNumberOutOfInterval
  else
    serialOrderLoop f ws.inChains (FoundryOutput.ID f) ws.txOutputs

/-- Models `checkStateGenesisTransition`: the controlling alias output must be
present among both the input and the output chains; then the serial-number
checks run; then the native-token sums must balance with diff equal to the
new circulating supply. The Go type assertions `.(*AliasOutput)` panic on a
non-alias value (`fatal`). -/
def checkStateGenesisTransition (f : FoundryOutput) (ws : WorkingSet) : VResult :=
  match alookup ws.inChains (ChainID.aliasKey f.ident.aliasID) with
  | none => .err .missingInAlias
  | some inCO =>
    match alookup ws.outChains (ChainID.aliasKey f.ident.aliasID) with
    | none => .err .missingOutAlias
    | some outCO =>
      match inCO, outCO with
      | .aliasOut inA, .aliasOut outA =>
        match checkSerialNumberAgainstAliasFoundries f inA outA ws with
        | .ok =>
          if nativeTokenSumBalancedWithDiff (FoundryOutput.nativeTokenID f)
              ws.inNativeTokens ws.outNativeTokens f.circulatingSupply then .ok
          else .err .nativeTokenSupplyMismatch
        | r => r
      | _, _ => .fatal

/-- Models `checkStateChangeTransition` (lines 314–344): the next state must be a
foundry output; immutable feature blocks must be unchanged; a foundry-ID
mismatch is a panic (`fatal`); maximum supply and token tag must be
unchanged; and the native-token sums must balance with diff
`next.CirculatingSupply − f.CirculatingSupply`. The checks run in exactly
this order. -/
def checkStateChangeTransition (f : FoundryOutput) (next : ChainOutput)
    (inSums outSums : List (List Nat × Int)) : VResult :=
  match next with
  | .aliasOut _ => .err .nextNotFoundry
  | .foundryOut n =>
    if f.immutableBlocks ≠ n.immutableBlocks then .err .immutableBlocksMutated
    else if FoundryOutput.ID f ≠ FoundryOutput.ID n then .fatal
    else if f.maximumSupply ≠ n.maximumSupply then .err .maximumSupplyMutated
    else if f.tokenTag ≠ n.tokenTag then .err .tokenTagMutated
    else if nativeTokenSumBalancedWithDiff (FoundryOutput.nativeTokenID f)
        inSums outSums (n.circulatingSupply - f.circulatingSupply) then .ok
    else .err .nativeTokenSupplyMismatch

/-- Models `FoundryOutput.ValidateStateTransition` (lines 232–249): dispatch on the
transition kind. The destroy case balances the sums against `common.Big0`,
i.e. an expected diff of zero. A nil `next` on a state change fails the
`.(*FoundryOutput)` comma-ok assertion and returns the not-a-foundry
error. -/
def validateStateTransition (f : FoundryOutput) (transType : ChainTransitionType)
    (next : Option ChainOutput) (ws : WorkingSet) : VResult :=
  match transType with
  | .genesis => checkStateGenesisTransition f ws
  | .stateChange =>
    match next with
    | some n => checkStateChangeTransition f n ws.inNativeTokens ws.outNativeTokens
    | none => .err .nextNotFoundry
  | .destroy =>
    if nativeTokenSumBalancedWithDiff (FoundryOutput.nativeTokenID f)
        ws.inNativeTokens ws.outNativeTokens 0 then .ok
    else .err .nativeTokenSupplyMismatch

/-! ### Binary serialization of a foundry output

Models `FoundryOutput.Serialize` / `FoundryOutput.Deserialize` field order:
type byte, amount, native tokens, serial number, token tag, circulating
supply, maximum supply, token scheme, unlock conditions, feature blocks,
immutable feature blocks. Discriminants of the era: `OutputFoundry = 5`,
`UnlockConditionImmutableAlias = 6`, `FeatureBlockMetadata = 2`,
`AddressAlias = 8`, `TokenSchemeSimple = 0`. Sub-object encodings are
length-prefixed per §4.4; `WriteUint256` fails on a negative value or one
that does not fit 32 bytes, and no step inspects the supply invariant. -/

/-- Models `WriteUint256`: 32 little-endian bytes; fails if the value is negative
or does not fit in 32 bytes. -/
def uint256LE (v : Int) : Except Unit (List Nat) :=
  if 0 ≤ v ∧ v < 2 ^ 256 then .ok (natToLEBytes 32 v.toNat) else .error ()

/-- Serialize native-token entries: the 38-byte token ID then the 32-byte
amount, for each entry in order. -/
def serializeNativeTokens : List NativeToken → Except Unit (List Nat)
  | [] => .ok []
  | (tid, amt) :: rest => do
    let a ← uint256LE amt
    let r ← serializeNativeTokens rest
    .ok (tid ++ a ++ r)

/-- The wire form of one native-token entry, for the array-rule byte
comparison (token ID then 32-byte little-endian amount). -/
def serializedTokenBytes (t : NativeToken) : List Nat :=
  t.1 ++ natToLEBytes 32 t.2.toNat

/-- The `nativeTokensArrayRules` validation-mode check
(`ArrayValidationModeLexicalOrdering` together with
`ArrayValidationModeNoDuplicates`): consecutive entries' serialized bytes
must be strictly increasing (§4.2 — strictness subsumes the no-duplicates
rule; the rule set itself is declared outside `src/`, its modes per the
spec's words). -/
def tokensLexOrdered : List NativeToken → Bool
  | [] => true
  | [_] => true
  | a :: b :: rest =>
    bytesLt (serializedTokenBytes a) (serializedTokenBytes b) &&
      tokensLexOrdered (b :: rest)

/-- Serialize metadata feature blocks: type byte, data length, data. -/
def serializeFeatBlocksAux : List FeatBlock → List Nat
  | [] => []
  | b :: rest => 2 :: b.length :: (b ++ serializeFeatBlocksAux rest)

/-- Models `FoundryOutput.Serialize` (validation mode included): each
collection write enforces its `ArrayRules` — native tokens must be in
strict lexical byte order (no duplicates), feature blocks and immutable
feature blocks are bounded by `Max: 1`
(`foundryOutputFeatBlockArrayRules` / `foundryOutputImmFeatBlockArrayRules`,
lines 55–105; ≤ 1 element makes their ordering modes vacuous). The single
mandatory immutable-alias condition (`Min: 1, Max: 1`, `MustOccur`) and the
metadata-only write guards hold by construction in the model (`ident` *is*
that condition, every block is a metadata block). The 256-bit supply
writes fail on out-of-range values; no step compares the circulating
supply against the maximum supply. -/
def serializeFoundryOutput (f : FoundryOutput) : Except Unit (List Nat) := do
  let nt ← serializeNativeTokens f.nativeTokens
  if tokensLexOrdered f.nativeTokens = false then .error () else do
  let circ ← uint256LE f.circulatingSupply
  let maxs ← uint256LE f.maximumSupply
  if f.blocks.length > 1 then .error () else do
  if f.immutableBlocks.length > 1 then .error () else do
  .ok ([5] ++ uint64LE f.amount ++ [f.nativeTokens.length] ++ nt ++
    uint32LE f.serialNumber ++ f.tokenTag ++ circ ++ maxs ++
    [f.tokenSchemeType] ++ [1, 6] ++ serializeAliasAddress f.ident ++
    [f.blocks.length] ++ serializeFeatBlocksAux f.blocks ++
    [f.immutableBlocks.length] ++ serializeFeatBlocksAux f.immutableBlocks)

/-- Read one byte off the wire (`TruncatedInput` on underflow). -/
def readByteW (bs : List Nat) : Except Unit (Nat × List Nat) :=
  match bs with
  | [] => .error ()
  | b :: rest => .ok (b, rest)

/-- Read a fixed-size chunk off the wire (`TruncatedInput` on underflow). -/
def readChunk (n : Nat) (bs : List Nat) : Except Unit (List Nat × List Nat) :=
  if bs.length < n then .error () else .ok (bs.take n, bs.drop n)

/-- Read `k` native-token entries. -/
def readTokens : Nat → List Nat → Except Unit (List NativeToken × List Nat)
  | 0, bs => .ok ([], bs)
  | k + 1, bs => do
    let (tid, bs1) ← readChunk 38 bs
    let (amt, bs2) ← readChunk 32 bs1
    let (rest, bs3) ← readTokens k bs2
    .ok ((tid, (leBytesToNat amt : Int)) :: rest, bs3)

/-- Read `k` metadata feature blocks. -/
def readBlocks : Nat → List Nat → Except Unit (List FeatBlock × List Nat)
  | 0, bs => .ok ([], bs)
  | k + 1, bs => do
    let (ty, bs1) ← readByteW bs
    if ty ≠ 2 then .error () else do
      let (len, bs2) ← readByteW bs1
      let (dat, bs3) ← readChunk len bs2
      let (rest, bs4) ← readBlocks k bs3
      .ok (dat :: rest, bs4)

/-- Models `FoundryOutput.Deserialize` (validation mode included): reads the
fields in encode order, enforcing the type discriminants and each
collection's `ArrayRules` — strict lexical order (no duplicates) for
native tokens, the single mandatory immutable-alias condition, and the
`Max: 1` bound on feature and immutable feature blocks; no step compares
the circulating supply against the maximum supply. -/
def deserializeFoundryOutput (bs : List Nat) : Except Unit FoundryOutput := do
  let (ty, bs1) ← readByteW bs
  if ty ≠ 5 then .error () else do
  let (amountB, bs2) ← readChunk 8 bs1
  let (ntCount, bs3) ← readByteW bs2
  let (tokens, bs4) ← readTokens ntCount bs3
  if tokensLexOrdered tokens = false then .error () else do
  let (serialB, bs5) ← readChunk 4 bs4
  let (tag, bs6) ← readChunk 12 bs5
  let (circB, bs7) ← readChunk 32 bs6
  let (maxB, bs8) ← readChunk 32 bs7
  let (schemeTy, bs9) ← readByteW bs8
  if schemeTy ≠ 0 then .error () else do
  let (condCount, bs10) ← readByteW bs9
  if condCount ≠ 1 then .error () else do
  let (condTy, bs11) ← readByteW bs10
  if condTy ≠ 6 then .error () else do
  let (addrTy, bs12) ← readByteW bs11
  if addrTy ≠ 8 then .error () else do
  let (aid, bs13) ← readChunk 20 bs12
  let (blkCount, bs14) ← readByteW bs13
  if blkCount > 1 then .error () else do
  let (blks, bs15) ← readBlocks blkCount bs14
  let (immCount, bs16) ← readByteW bs15
  if immCount > 1 then .error () else do
  let (imms, _) ← readBlocks immCount bs16
  .ok { amount := leBytesToNat amountB, nativeTokens := tokens,
        serialNumber := leBytesToNat serialB, tokenTag := tag,
        circulatingSupply := (leBytesToNat circB : Int),
        maximumSupply := (leBytesToNat maxB : Int),
        tokenSchemeType := schemeTy,
        ident := { aliasID := aid }, blocks := blks, immutableBlocks := imms }

/-- Whether an `Except` computation succeeded. -/
def exceptIsOk {ε α : Type} : Except ε α → Bool
  | .ok _ => true
  | .error _ => false

/-- Modelled from the spec: the transaction-level output syntactic
validation enforcing `0 ≤ CirculatingSupply ≤ MaximumSupply` (§3, §8). The
enforcing pass is code of this repository not under `src/`; the
serialization and STVF code that is under `src/` never checks this bound. -/
def foundrySupplyValid (f : FoundryOutput) : Bool :=
  decide (0 ≤ f.circulatingSupply) && decide (f.circulatingSupply ≤ f.maximumSupply)

/-! ### Claim C1: genesis serial-number interval -/

/-- Claim C1: under a Genesis transition whose working set contains the
controlling alias output both as an input (counter `inCounter`) and as an
output (counter `outCounter`), validation fails with an
invalid-chain-state-transition error unless
`inCounter < SerialNumber ∧ SerialNumber ≤ outCounter`. -/
theorem genesis_serial_interval (f : FoundryOutput) (ws : WorkingSet)
    (inA outA : AliasOutput)
    (hin : alookup ws.inChains (ChainID.aliasKey f.ident.aliasID) =
      some (ChainOutput.aliasOut inA))
    (hout : alookup ws.outChains (ChainID.aliasKey f.ident.aliasID) =
      some (ChainOutput.aliasOut outA))
    (hbad : ¬ (inA.foundryCounter < f.serialNumber ∧
      f.serialNumber ≤ outA.foundryCounter)) :
    validateStateTransition f ChainTransitionType.genesis none ws =
      VResult.err FoundryErr.serialNumberOutOfInterval ∧
    FoundryErr.serialNumberOutOfInterval.wrapsInvalidChainStateTransition = true := by
  refine ⟨?_, rfl⟩
  have hcond : inA.foundryCounter ≥ f.serialNumber ∨
      f.serialNumber > outA.foundryCounter := by omega
  simp [validateStateTransition, checkStateGenesisTransition, hin, hout,
    checkSerialNumberAgainstAliasFoundries, hcond]

/-- Witness for C1 at a concrete input: a foundry with serial number 5
against counters `[2, 4]`. -/
theorem genesis_serial_interval_witness :
    validateStateTransition
      { amount := 0, nativeTokens := [], serialNumber := 5, tokenTag := [],
        circulatingSupply := 0, maximumSupply := 10, tokenSchemeType := 0,
        ident := { aliasID := [1] }, blocks := [], immutableBlocks := [] }
      ChainTransitionType.genesis none
      { inChains := [(ChainID.aliasKey [1],
          ChainOutput.aliasOut { aliasID := [1], foundryCounter := 2 })],
        outChains := [(ChainID.aliasKey [1],
          ChainOutput.aliasOut { aliasID := [1], foundryCounter := 4 })],
        inNativeTokens := [], outNativeTokens := [], txOutputs := [] } =
      VResult.err FoundryErr.serialNumberOutOfInterval ∧
    FoundryErr.serialNumberOutOfInterval.wrapsInvalidChainStateTransition = true :=
  genesis_serial_interval _ _ { aliasID := [1], foundryCounter := 2 }
    { aliasID := [1], foundryCounter := 4 } (by decide) (by decide) (by decide)

/-! ### Claim C2: genesis serial-number ordering -/

/-- Helper for C2: if the output list contains, before any occurrence of
this foundry's own ID among the new same-controller foundries, a new
same-controller foundry with a greater-or-equal serial number, the ordering
loop returns the out-of-order error. -/
theorem serialOrderLoop_err_of_earlier (f : FoundryOutput)
    (inChains : List (ChainID × ChainOutput)) (g : FoundryOutput) :
    ∀ l1 l2 : List TxOutput,
    g.ident = f.ident →
    alookup inChains (ChainID.foundryKey (FoundryOutput.ID g)) = none →
    FoundryOutput.ID g ≠ FoundryOutput.ID f →
    g.serialNumber ≥ f.serialNumber →
    (∀ o : FoundryOutput, TxOutput.foundry o ∈ l1 → o.ident = f.ident →
      alookup inChains (ChainID.foundryKey (FoundryOutput.ID o)) = none →
      FoundryOutput.ID o ≠ FoundryOutput.ID f) →
    serialOrderLoop f inChains (FoundryOutput.ID f) (l1 ++ TxOutput.foundry g :: l2) =
      VResult.err FoundryErr.serialNumberOutOfOrder := by
  intro l1
  induction l1 with
  | nil =>
    intro l2 hident hnew hid hge _
    simp [serialOrderLoop, hident, hnew, hid, hge]
  | cons o t ih =>
    intro l2 hident hnew hid hge hearlier
    match o with
    | .nonFoundry _ =>
      simpa [serialOrderLoop] using
        ih l2 hident hnew hid hge (fun o ho => hearlier o (by simp [ho]))
    | .foundry p =>
      by_cases hp : p.ident = f.ident
      · by_cases hpnew :
          alookup inChains (ChainID.foundryKey (FoundryOutput.ID p)) = none
        · have hpid : FoundryOutput.ID p ≠ FoundryOutput.ID f :=
            hearlier p (by simp) hp hpnew
          by_cases hpser : p.serialNumber ≥ f.serialNumber
          · simp [serialOrderLoop, hp, hpnew, hpid, hpser]
          · simpa [serialOrderLoop, hp, hpnew, hpid, hpser] using
              ih l2 hident hnew hid hge (fun o ho => hearlier o (by simp [ho]))
        · have hsome :
            (alookup inChains (ChainID.foundryKey (FoundryOutput.ID p))).isSome = true := by
            cases hl : alookup inChains (ChainID.foundryKey (FoundryOutput.ID p)) with
            | none => exact absurd hl hpnew
            | some v => rfl
          simpa [serialOrderLoop, hp, hsome] using
            ih l2 hident hnew hid hge (fun o ho => hearlier o (by simp [ho]))
      · simpa [serialOrderLoop, hp] using
          ih l2 hident hnew hid hge (fun o ho => hearlier o (by simp [ho]))

/-- Claim C2: under a Genesis transition with the controlling alias present
on both sides and the serial number inside the counter interval, if the
transaction's outputs contain — before any output carrying this foundry's
own ID — a new same-controller foundry output `g` with
`g.SerialNumber ≥ f.SerialNumber`, validation fails with the
serial-number-out-of-order error. -/
theorem genesis_serial_order (f g : FoundryOutput) (ws : WorkingSet)
    (inA outA : AliasOutput) (l1 l2 : List TxOutput)
    (hin : alookup ws.inChains (ChainID.aliasKey f.ident.aliasID) =
      some (ChainOutput.aliasOut inA))
    (hout : alookup ws.outChains (ChainID.aliasKey f.ident.aliasID) =
      some (ChainOutput.aliasOut outA))
    (hlow : inA.foundryCounter < f.serialNumber)
    (hhigh : f.serialNumber ≤ outA.foundryCounter)
    (houts : ws.txOutputs = l1 ++ TxOutput.foundry g :: l2)
    (hident : g.ident = f.ident)
    (hnew : alookup ws.inChains (ChainID.foundryKey (FoundryOutput.ID g)) = none)
    (hid : FoundryOutput.ID g ≠ FoundryOutput.ID f)
    (hge : g.serialNumber ≥ f.serialNumber)
    (hearlier : ∀ o : FoundryOutput, TxOutput.foundry o ∈ l1 → o.ident = f.ident →
      alookup ws.inChains (ChainID.foundryKey (FoundryOutput.ID o)) = none →
      FoundryOutput.ID o ≠ FoundryOutput.ID f) :
    validateStateTransition f ChainTransitionType.genesis none ws =
      VResult.err FoundryErr.serialNumberOutOfOrder := by
  have hcond : ¬ (inA.foundryCounter ≥ f.serialNumber ∨
      f.serialNumber > outA.foundryCounter) := by omega
  have hloop := serialOrderLoop_err_of_earlier f ws.inChains g l1 l2
    hident hnew hid hge hearlier
  simp [validateStateTransition, checkStateGenesisTransition, hin, hout,
    checkSerialNumberAgainstAliasFoundries, hcond, ← houts] at hloop ⊢
  simp [hloop]

/-- Witness for C2: the spec's example — three new same-controller foundries
with serial numbers `3, 1, 2` in output order; validating the serial-1
foundry fails against the earlier serial-3 one. -/
theorem genesis_serial_order_witness :
    validateStateTransition
      { amount := 0, nativeTokens := [], serialNumber := 1, tokenTag := [],
        circulatingSupply := 0, maximumSupply := 10, tokenSchemeType := 0,
        ident := { aliasID := [1] }, blocks := [], immutableBlocks := [] }
      ChainTransitionType.genesis none
      { inChains := [(ChainID.aliasKey [1],
          ChainOutput.aliasOut { aliasID := [1], foundryCounter := 0 })],
        outChains := [(ChainID.aliasKey [1],
          ChainOutput.aliasOut { aliasID := [1], foundryCounter := 3 })],
        inNativeTokens := [], outNativeTokens := [],
        txOutputs :=
          [TxOutput.foundry
            { amount := 0, nativeTokens := [], serialNumber := 3, tokenTag := [],
              circulatingSupply := 0, maximumSupply := 10, tokenSchemeType := 0,
              ident := { aliasID := [1] }, blocks := [], immutableBlocks := [] },
           TxOutput.foundry
            { amount := 0, nativeTokens := [], serialNumber := 1, tokenTag := [],
              circulatingSupply := 0, maximumSupply := 10, tokenSchemeType := 0,
              ident := { aliasID := [1] }, blocks := [], immutableBlocks := [] },
           TxOutput.foundry
            { amount := 0, nativeTokens := [], serialNumber := 2, tokenTag := [],
              circulatingSupply := 0, maximumSupply := 10, tokenSchemeType := 0,
              ident := { aliasID := [1] }, blocks := [], immutableBlocks := [] }] } =
      VResult.err FoundryErr.serialNumberOutOfOrder :=
  genesis_serial_order _
    { amount := 0, nativeTokens := [], serialNumber := 3, tokenTag := [],
      circulatingSupply := 0, maximumSupply := 10, tokenSchemeType := 0,
      ident := { aliasID := [1] }, blocks := [], immutableBlocks := [] }
    _ { aliasID := [1], foundryCounter := 0 } { aliasID := [1], foundryCounter := 3 }
    [] _ (by decide) (by decide) (by decide) (by decide) rfl (by decide) (by decide)
    (by decide) (by decide) (by intro o ho; simp at ho)

/-! ### Claim C3: destroy-transition balance

The code (`ValidateStateTransition`, destroy case) balances the sums
against `common.Big0`, i.e. an expected diff of zero — not against
`0 − CirculatingSupply` as the claim states. -/

/-- Counterexample to C3 as stated: a foundry with circulating supply 5,
with exactly that amount among the transaction's input sums and nothing on
the output side, so the balance delta is `0 − priorCirculatingSupply = −5`.
The claim predicts success; the code fails with the supply-mismatch error
because it expects a delta of zero. -/
theorem destroy_supply_claim_counterexample :
    (sumOf ([] : List (List Nat × Int))
        (FoundryOutput.nativeTokenID
          { amount := 0, nativeTokens := [], serialNumber := 1, tokenTag := [7],
            circulatingSupply := 5, maximumSupply := 10, tokenSchemeType := 0,
            ident := { aliasID := [1] }, blocks := [], immutableBlocks := [] }) -
      sumOf [(FoundryOutput.nativeTokenID
          { amount := 0, nativeTokens := [], serialNumber := 1, tokenTag := [7],
            circulatingSupply := 5, maximumSupply := 10, tokenSchemeType := 0,
            ident := { aliasID := [1] }, blocks := [], immutableBlocks := [] }, (5 : Int))]
        (FoundryOutput.nativeTokenID
          { amount := 0, nativeTokens := [], serialNumber := 1, tokenTag := [7],
            circulatingSupply := 5, maximumSupply := 10, tokenSchemeType := 0,
            ident := { aliasID := [1] }, blocks := [], immutableBlocks := [] }) =
      0 - (5 : Int)) ∧
    validateStateTransition
      { amount := 0, nativeTokens := [], serialNumber := 1, tokenTag := [7],
        circulatingSupply := 5, maximumSupply := 10, tokenSchemeType := 0,
        ident := { aliasID := [1] }, blocks := [], immutableBlocks := [] }
      ChainTransitionType.destroy none
      { inChains := [], outChains := [],
        inNativeTokens := [(FoundryOutput.nativeTokenID
          { amount := 0, nativeTokens := [], serialNumber := 1, tokenTag := [7],
            circulatingSupply := 5, maximumSupply := 10, tokenSchemeType := 0,
            ident := { aliasID := [1] }, blocks := [], immutableBlocks := [] }, (5 : Int))],
        outNativeTokens := [], txOutputs := [] } =
      VResult.err FoundryErr.nativeTokenSupplyMismatch := by
  constructor
  · decide
  · decide

/-- Claim C3 (amended): under a Destroy transition, validation succeeds if
and only if the native-token balance delta for the foundry's token ID is
zero (`common.Big0` is the expected diff in the code); otherwise it fails
with the supply-mismatch error. -/
theorem destroy_balance_iff (f : FoundryOutput) (ws : WorkingSet) :
    validateStateTransition f ChainTransitionType.destroy none ws =
      (if sumOf ws.outNativeTokens (FoundryOutput.nativeTokenID f) -
          sumOf ws.inNativeTokens (FoundryOutput.nativeTokenID f) = 0 then VResult.ok
        else VResult.err FoundryErr.nativeTokenSupplyMismatch) := by
  by_cases h : sumOf ws.outNativeTokens (FoundryOutput.nativeTokenID f) -
      sumOf ws.inNativeTokens (FoundryOutput.nativeTokenID f) = 0 <;>
    simp [validateStateTransition, nativeTokenSumBalancedWithDiff, h]

/-! ### Claim C4: state-change transition

The code checks immutable feature blocks *before* the foundry-ID panic, so
an ID mismatch combined with mutated immutable blocks is a returned error,
not a panic; the claim's unconditional panic clause fails. -/

/-- Counterexample to C4's panic clause as stated: two foundry states with
different immutable feature blocks *and* different foundry IDs. The claim
predicts a fatal contract violation (panic); the code returns the
immutable-blocks error instead. -/
theorem statechange_id_mismatch_counterexample :
    FoundryOutput.ID
        { amount := 0, nativeTokens := [], serialNumber := 1, tokenTag := [7],
          circulatingSupply := 5, maximumSupply := 10, tokenSchemeType := 0,
          ident := { aliasID := [1] }, blocks := [], immutableBlocks := [] } ≠
      FoundryOutput.ID
        { amount := 0, nativeTokens := [], serialNumber := 2, tokenTag := [7],
          circulatingSupply := 5, maximumSupply := 10, tokenSchemeType := 0,
          ident := { aliasID := [1] }, blocks := [], immutableBlocks := [[9]] } ∧
    checkStateChangeTransition
      { amount := 0, nativeTokens := [], serialNumber := 1, tokenTag := [7],
        circulatingSupply := 5, maximumSupply := 10, tokenSchemeType := 0,
        ident := { aliasID := [1] }, blocks := [], immutableBlocks := [] }
      (ChainOutput.foundryOut
        { amount := 0, nativeTokens := [], serialNumber := 2, tokenTag := [7],
          circulatingSupply := 5, maximumSupply := 10, tokenSchemeType := 0,
          ident := { aliasID := [1] }, blocks := [], immutableBlocks := [[9]] })
      [] [] = VResult.err FoundryErr.immutableBlocksMutated ∧
    VResult.err FoundryErr.immutableBlocksMutated ≠ VResult.fatal := by
  refine ⟨by decide, by decide, by decide⟩

/-- Claim C4 (amended): for a StateChange transition between two foundry
states: with equal foundry IDs, any difference in maximum supply, token tag
or immutable feature blocks fails with an immutable-field-mutated error;
if only the circulating supply changes and the native-token delta matches,
validation succeeds; and a foundry-ID mismatch is a fatal contract
violation (panic) provided the immutable feature blocks are unchanged
(otherwise the immutable-blocks error is returned first). -/
theorem statechange_transition_rules :
    (∀ (f n : FoundryOutput) (inS outS : List (List Nat × Int)),
      FoundryOutput.ID f = FoundryOutput.ID n →
      (f.immutableBlocks ≠ n.immutableBlocks ∨ f.maximumSupply ≠ n.maximumSupply ∨
        f.tokenTag ≠ n.tokenTag) →
      ∃ e, checkStateChangeTransition f (ChainOutput.foundryOut n) inS outS =
          VResult.err e ∧ e.isImmutableFieldMutated = true) ∧
    (∀ (f : FoundryOutput) (c : Int) (inS outS : List (List Nat × Int)),
      sumOf outS (FoundryOutput.nativeTokenID f) -
          sumOf inS (FoundryOutput.nativeTokenID f) = c - f.circulatingSupply →
      checkStateChangeTransition f
        (ChainOutput.foundryOut { f with circulatingSupply := c }) inS outS =
        VResult.ok) ∧
    (∀ (f n : FoundryOutput) (inS outS : List (List Nat × Int)),
      f.immutableBlocks = n.immutableBlocks →
      FoundryOutput.ID f ≠ FoundryOutput.ID n →
      checkStateChangeTransition f (ChainOutput.foundryOut n) inS outS =
        VResult.fatal) := by
  refine ⟨?_, ?_, ?_⟩
  · intro f n inS outS hid hdiff
    by_cases himm : f.immutableBlocks = n.immutableBlocks
    · by_cases hmax : f.maximumSupply = n.maximumSupply
      · have htag : f.tokenTag ≠ n.tokenTag := by tauto
        exact ⟨FoundryErr.tokenTagMutated, by
          simp [checkStateChangeTransition, himm, hid, hmax, htag], rfl⟩
      · exact ⟨FoundryErr.maximumSupplyMutated, by
          simp [checkStateChangeTransition, himm, hid, hmax], rfl⟩
    · exact ⟨FoundryErr.immutableBlocksMutated, by
        simp [checkStateChangeTransition, himm], rfl⟩
  · intro f c inS outS hbal
    have hid : FoundryOutput.ID { f with circulatingSupply := c } =
        FoundryOutput.ID f := rfl
    have hbal' : sumOf outS (FoundryOutput.ID f ++ f.tokenTag) -
        sumOf inS (FoundryOutput.ID f ++ f.tokenTag) =
        c - f.circulatingSupply := hbal
    simp [checkStateChangeTransition, nativeTokenSumBalancedWithDiff,
      FoundryOutput.nativeTokenID, hid, hbal']
  · intro f n inS outS himm hid
    simp [checkStateChangeTransition, himm, hid]

/-- Witness for C4's amended rules at concrete inputs: a maximum-supply
change fails with an immutable-field-mutated error; a pure
circulating-supply change with matching delta succeeds; an ID mismatch with
unchanged immutable blocks is fatal. -/
theorem statechange_transition_rules_witness :
    (∃ e, checkStateChangeTransition
        { amount := 0, nativeTokens := [], serialNumber := 1, tokenTag := [7],
          circulatingSupply := 5, maximumSupply := 10, tokenSchemeType := 0,
          ident := { aliasID := [1] }, blocks := [], immutableBlocks := [] }
        (ChainOutput.foundryOut
          { amount := 0, nativeTokens := [], serialNumber := 1, tokenTag := [7],
            circulatingSupply := 5, maximumSupply := 11, tokenSchemeType := 0,
            ident := { aliasID := [1] }, blocks := [], immutableBlocks := [] })
        [] [] = VResult.err e ∧ e.isImmutableFieldMutated = true) ∧
    checkStateChangeTransition
      { amount := 0, nativeTokens := [], serialNumber := 1, tokenTag := [7],
        circulatingSupply := 5, maximumSupply := 10, tokenSchemeType := 0,
        ident := { aliasID := [1] }, blocks := [], immutableBlocks := [] }
      (ChainOutput.foundryOut
        { amount := 0, nativeTokens := [], serialNumber := 1, tokenTag := [7],
          circulatingSupply := 8, maximumSupply := 10, tokenSchemeType := 0,
          ident := { aliasID := [1] }, blocks := [], immutableBlocks := [] })
      []
      [(FoundryOutput.nativeTokenID
          { amount := 0, nativeTokens := [], serialNumber := 1, tokenTag := [7],
            circulatingSupply := 5, maximumSupply := 10, tokenSchemeType := 0,
            ident := { aliasID := [1] }, blocks := [], immutableBlocks := [] }, (3 : Int))] =
      VResult.ok ∧
    checkStateChangeTransition
      { amount := 0, nativeTokens := [], serialNumber := 1, tokenTag := [7],
        circulatingSupply := 5, maximumSupply := 10, tokenSchemeType := 0,
        ident := { aliasID := [1] }, blocks := [], immutableBlocks := [] }
      (ChainOutput.foundryOut
        { amount := 0, nativeTokens := [], serialNumber := 2, tokenTag := [7],
          circulatingSupply := 5, maximumSupply := 10, tokenSchemeType := 0,
          ident := { aliasID := [1] }, blocks := [], immutableBlocks := [] })
      [] [] = VResult.fatal := by
  refine ⟨statechange_transition_rules.1 _ _ [] [] (by decide) (by decide), ?_, ?_⟩
  · exact statechange_transition_rules.2.1
      { amount := 0, nativeTokens := [], serialNumber := 1, tokenTag := [7],
        circulatingSupply := 5, maximumSupply := 10, tokenSchemeType := 0,
        ident := { aliasID := [1] }, blocks := [], immutableBlocks := [] }
      8 _ _ (by decide)
  · exact statechange_transition_rules.2.2 _ _ [] [] (by decide) (by decide)

/-! ### Claims C6 and C10: foundry ID structure and serial-number readback

Well-formedness hypotheses pin the model to Go's machine types: alias IDs
are 20 bytes, serial numbers are `uint32`, scheme types are single bytes. -/

/-- Claim C6: the foundry ID is the serialized controller address followed
by the 4-byte little-endian serial number and the token-scheme type byte,
of fixed total length 26; and two foundry outputs (well-formed for the
machine types) have equal IDs exactly when controller address, serial
number and scheme type all agree — so changing any one component changes
the ID. -/
theorem foundry_id_deterministic (f g : FoundryOutput)
    (hf20 : f.ident.aliasID.length = 20) (hg20 : g.ident.aliasID.length = 20)
    (hfs : f.serialNumber < 4294967296) (hgs : g.serialNumber < 4294967296)
    (hft : f.tokenSchemeType < 256) (hgt : g.tokenSchemeType < 256) :
    FoundryOutput.ID f =
      serializeAliasAddress f.ident ++ uint32LE f.serialNumber ++ [f.tokenSchemeType] ∧
    (FoundryOutput.ID f).length = 26 ∧
    (FoundryOutput.ID f = FoundryOutput.ID g ↔
      (f.ident = g.ident ∧ f.serialNumber = g.serialNumber ∧
        f.tokenSchemeType = g.tokenSchemeType)) := by
  refine ⟨rfl, ?_, ?_, ?_⟩
  · simp [FoundryOutput.ID, serializeAliasAddress, uint32LE, hf20]
  · intro h
    have hlen : (serializeAliasAddress f.ident).length =
        (serializeAliasAddress g.ident).length := by
      simp [serializeAliasAddress, hf20, hg20]
    have h' : serializeAliasAddress f.ident ++ (uint32LE f.serialNumber ++ [f.tokenSchemeType]) =
        serializeAliasAddress g.ident ++ (uint32LE g.serialNumber ++ [g.tokenSchemeType]) := by
      simpa [FoundryOutput.ID, List.append_assoc] using h
    obtain ⟨haddr, hrest⟩ := List.append_inj h' hlen
    have hident : f.ident = g.ident := by
      apply AliasAddress.ext
      simpa [serializeAliasAddress] using haddr
    have hlen4 : (uint32LE f.serialNumber).length = (uint32LE g.serialNumber).length := by
      simp [uint32LE]
    obtain ⟨hser, htyp⟩ := List.append_inj hrest hlen4
    have htyp' : f.tokenSchemeType = g.tokenSchemeType := by simpa using htyp
    have hser' : f.serialNumber = g.serialNumber := by
      simp only [uint32LE, List.cons.injEq, and_true] at hser
      omega
    exact ⟨hident, hser', htyp'⟩
  · rintro ⟨h1, h2, h3⟩
    simp [FoundryOutput.ID, h1, h2, h3]

/-- Witness for C6 at concrete well-formed inputs. -/
theorem foundry_id_deterministic_witness :
    FoundryOutput.ID
        { amount := 0, nativeTokens := [], serialNumber := 7, tokenTag := [7],
          circulatingSupply := 0, maximumSupply := 1, tokenSchemeType := 0,
          ident := { aliasID := List.replicate 20 3 }, blocks := [], immutableBlocks := [] } =
      serializeAliasAddress { aliasID := List.replicate 20 3 } ++ uint32LE 7 ++ [0] ∧
    (FoundryOutput.ID
        { amount := 0, nativeTokens := [], serialNumber := 7, tokenTag := [7],
          circulatingSupply := 0, maximumSupply := 1, tokenSchemeType := 0,
          ident := { aliasID := List.replicate 20 3 }, blocks := [], immutableBlocks := [] }).length = 26 ∧
    (FoundryOutput.ID
        { amount := 0, nativeTokens := [], serialNumber := 7, tokenTag := [7],
          circulatingSupply := 0, maximumSupply := 1, tokenSchemeType := 0,
          ident := { aliasID := List.replicate 20 3 }, blocks := [], immutableBlocks := [] } =
      FoundryOutput.ID
        { amount := 0, nativeTokens := [], serialNumber := 8, tokenTag := [7],
          circulatingSupply := 0, maximumSupply := 1, tokenSchemeType := 0,
          ident := { aliasID := List.replicate 20 3 }, blocks := [], immutableBlocks := [] } ↔
      ({ aliasID := List.replicate 20 3 } : AliasAddress) =
          { aliasID := List.replicate 20 3 } ∧ (7 : Nat) = 8 ∧ (0 : Nat) = 0) :=
  foundry_id_deterministic _ _ (by decide) (by decide) (by decide) (by decide)
    (by decide) (by decide)

/-- Claim C10: reading the serial number back out of a foundry ID with
`FoundryID.FoundrySerialNumber` (the little-endian `uint32` at offset 21)
returns exactly the output's serial number. -/
theorem foundry_serial_roundtrip (f : FoundryOutput)
    (h20 : f.ident.aliasID.length = 20) (hs : f.serialNumber < 4294967296) :
    FoundryID.foundrySerialNumber (FoundryOutput.ID f) = f.serialNumber := by
  have hdrop : (FoundryOutput.ID f).drop 21 = uint32LE f.serialNumber ++ [f.tokenSchemeType] := by
    have hlen : (serializeAliasAddress f.ident).length = 21 := by
      simp [serializeAliasAddress, h20]
    calc (FoundryOutput.ID f).drop 21
        = (serializeAliasAddress f.ident ++
            (uint32LE f.serialNumber ++ [f.tokenSchemeType])).drop
            (serializeAliasAddress f.ident).length := by
          rw [hlen]; simp [FoundryOutput.ID]
      _ = uint32LE f.serialNumber ++ [f.tokenSchemeType] := List.drop_left _ _
  have htake : (uint32LE f.serialNumber ++ [f.tokenSchemeType]).take 4 =
      uint32LE f.serialNumber := by
    have h4 : (uint32LE f.serialNumber).length = 4 := by simp [uint32LE]
    calc (uint32LE f.serialNumber ++ [f.tokenSchemeType]).take 4
        = (uint32LE f.serialNumber ++ [f.tokenSchemeType]).take
            (uint32LE f.serialNumber).length := by rw [h4]
      _ = uint32LE f.serialNumber := List.take_left _ _
  rw [FoundryID.foundrySerialNumber, hdrop, htake]
  simp [readUint32LEAt, uint32LE]
  omega

/-! ### Claim C5: supply invariant

Neither `Serialize` nor `Deserialize` (validation mode included) nor any
state-transition validation in `src/output_foundry.go` rejects
`CirculatingSupply > MaximumSupply`; the rejection lives in the
transaction-level output syntactic validation, which is repository code
not under `src/` and is modelled from the spec as `foundrySupplyValid`. -/

/-- A concrete supply-violating foundry output: circulating supply 2,
maximum supply 1. -/
def overSupplyFoundry : FoundryOutput :=
  { amount := 0
    nativeTokens := []
    serialNumber := 1
    tokenTag := [1, 2, 3, 4, 5, 6, 7, 8, 9, 10, 11, 12]
    circulatingSupply := 2
    maximumSupply := 1
    tokenSchemeType := 0
    ident := { aliasID := List.replicate 20 3 }
    blocks := []
    immutableBlocks := [] }

/-- An empty semantic-validation working set. -/
def emptyWorkingSet : WorkingSet :=
  { inChains := []
    outChains := []
    inNativeTokens := []
    outNativeTokens := []
    txOutputs := [] }

set_option maxRecDepth 8000 in
/-- Counterexample to C5 as stated: a foundry output with circulating
supply 2 and maximum supply 1 serializes successfully, deserializes back to
itself, and passes a Destroy state-transition validation with balanced
sums — so none of the claim's three named validation points rejects it. -/
theorem supply_invariant_counterexample :
    overSupplyFoundry.circulatingSupply > overSupplyFoundry.maximumSupply ∧
    (serializeFoundryOutput overSupplyFoundry).bind deserializeFoundryOutput =
      Except.ok overSupplyFoundry ∧
    validateStateTransition overSupplyFoundry ChainTransitionType.destroy none
      emptyWorkingSet = VResult.ok :=
  ⟨by decide, by rfl, by decide⟩

/-- Helper for C5: native-token serialization succeeds when every amount is
a valid unsigned 256-bit value. -/
theorem serializeNativeTokens_isOk (ts : List NativeToken)
    (ht : ∀ t ∈ ts, 0 ≤ t.2 ∧ t.2 < 2 ^ 256) :
    ∃ bs, serializeNativeTokens ts = .ok bs := by
  induction ts with
  | nil => exact ⟨[], rfl⟩
  | cons t rest ih =>
    obtain ⟨r, hr⟩ := ih (fun u hu => ht u (by simp [hu]))
    have hta := ht t (by simp)
    obtain ⟨tid, amt⟩ := t
    refine ⟨tid ++ natToLEBytes 32 amt.toNat ++ r, ?_⟩
    simp only [serializeNativeTokens, uint256LE, if_pos hta, hr]
    rfl

/-- Claim C5 (amended): an output with `CirculatingSupply > MaximumSupply`
is rejected by the output syntactic validation (modelled from the spec),
even though it is structurally encodable: serialization (validation mode
included) succeeds whenever the supply fields and token amounts fit
32 bytes and the collections satisfy their array rules (native tokens in
strict lexical order, at most one feature and one immutable feature
block). -/
theorem supply_invariant_validation (f : FoundryOutput)
    (hc : 0 ≤ f.circulatingSupply ∧ f.circulatingSupply < 2 ^ 256)
    (hm : 0 ≤ f.maximumSupply ∧ f.maximumSupply < 2 ^ 256)
    (ht : ∀ t ∈ f.nativeTokens, 0 ≤ t.2 ∧ t.2 < 2 ^ 256)
    (hord : tokensLexOrdered f.nativeTokens = true)
    (hb : f.blocks.length ≤ 1)
    (hib : f.immutableBlocks.length ≤ 1)
    (hgt : f.maximumSupply < f.circulatingSupply) :
    foundrySupplyValid f = false ∧ exceptIsOk (serializeFoundryOutput f) = true := by
  constructor
  · have : ¬ f.circulatingSupply ≤ f.maximumSupply := by omega
    simp [foundrySupplyValid, this]
  · obtain ⟨nt, hnt⟩ := serializeNativeTokens_isOk f.nativeTokens ht
    have hord' : ¬ (tokensLexOrdered f.nativeTokens = false) := by simp [hord]
    have hb' : ¬ (f.blocks.length > 1) := by omega
    have hib' : ¬ (f.immutableBlocks.length > 1) := by omega
    simp only [serializeFoundryOutput, uint256LE, if_pos hc, if_pos hm, hnt,
      if_neg hord', if_neg hb', if_neg hib']
    rfl

/-- Witness for C5's amended statement at the concrete violating output. -/
theorem supply_invariant_validation_witness :
    foundrySupplyValid overSupplyFoundry = false ∧
    exceptIsOk (serializeFoundryOutput overSupplyFoundry) = true :=
  supply_invariant_validation overSupplyFoundry
    (by constructor <;> norm_num [overSupplyFoundry])
    (by constructor <;> norm_num [overSupplyFoundry])
    (by intro t htm; simp [overSupplyFoundry] at htm)
    (by decide) (by decide) (by decide)
    (by norm_num [overSupplyFoundry])

/-- Witness for C10 at a concrete input with serial number `305419896`
(bytes `0x78 0x56 0x34 0x12`). -/
theorem foundry_serial_roundtrip_witness :
    FoundryID.foundrySerialNumber (FoundryOutput.ID
      { amount := 0, nativeTokens := [], serialNumber := 305419896, tokenTag := [7],
        circulatingSupply := 0, maximumSupply := 1, tokenSchemeType := 0,
        ident := { aliasID := List.replicate 20 3 }, blocks := [], immutableBlocks := [] }) =
      305419896 :=
  foundry_serial_roundtrip _ (by decide) (by decide)

/-! ### The signed-transaction builder

From `SignedTransactionPayloadBuilder.Build` (package `iota`, v1 era): for
each input, in final sorted order, resolve its owning address; if a
signature unlock block for that address exists already, emit a reference
unlock block pointing at its position; otherwise invoke the signer, then —
per address variant — panic for WOTS (unimplemented) or wrap an Ed25519
signature unlock block and record the position. The model carries the
per-input owner addresses (the builder's `inputToAddr` map applied to the
sorted inputs) and records signer invocations. -/

/-- The address variants of the v1 era: Ed25519 and WOTS (legacy). -/
inductive BuilderAddress where
  | ed25519 (pk : Nat)
  | wots (pk : Nat)
deriving DecidableEq, Repr

/-- Whether the address is an Ed25519 address. -/
def BuilderAddress.isEd25519 : BuilderAddress → Bool
  | .ed25519 _ => true
  | .wots _ => false

/-- Whether the address is a WOTS address (no implemented signing). -/
def BuilderAddress.isWots : BuilderAddress → Bool
  | .ed25519 _ => false
  | .wots _ => true

/-- An unlock block: a signature unlock (whose signature would be the Go
nil interface — `none` — were an address variant left unhandled) or a
reference unlock carrying the position of an earlier signature unlock. -/
inductive BUnlockBlock where
  | signature (sig : Option (Nat × Nat))
  | reference (pos : Nat)
deriving DecidableEq, Repr

/-- The loop state of `Build`: the running input index, the
address-to-position map `sigBlockPos`, the unlock blocks built so far, and
the addresses the signer was invoked on. -/
structure BuildState where
  idx : Nat
  sigBlockPos : List (BuilderAddress × Nat)
  blocks : List BUnlockBlock
  calls : List BuilderAddress
deriving DecidableEq, Repr

/-- The `Build` unlock-block loop. `none` models the fatal
`panic("WOTS signing not implemented")`; the signer (modelled as returning
signature and public-key material) is invoked before the variant switch,
exactly as in the code. -/
def processInputs (signer : BuilderAddress → Nat × Nat) :
    List BuilderAddress → BuildState → Option BuildState
  | [], st => some st
  | a :: rest, st =>
    match alookup st.sigBlockPos a with
    | some pos =>
      processInputs signer rest
        { st with idx := st.idx + 1, blocks := st.blocks ++ [.reference pos] }
    | none =>
      let calls := st.calls ++ [a]
      match a with
      | .wots _ => none
      | .ed25519 _ =>
        processInputs signer rest
          { idx := st.idx + 1,
            sigBlockPos := (a, st.idx) :: st.sigBlockPos,
            blocks := st.blocks ++ [.signature (some (signer a))],
            calls := calls }

/-- Models the unlock-block construction of `Build` over the sorted inputs' owner
addresses, from the initial empty state. -/
def buildUnlockBlocks (signer : BuilderAddress → Nat × Nat)
    (addrs : List BuilderAddress) : Option BuildState :=
  processInputs signer addrs { idx := 0, sigBlockPos := [], blocks := [], calls := [] }

/-- Index of the first occurrence of `a` in `l` (length of `l` if absent). -/
def firstIdx : List BuilderAddress → BuilderAddress → Nat
  | [], _ => 0
  | b :: t, a => if b = a then 0 else firstIdx t a + 1

/-- The unlock block the claim specifies for position `j` of the address
list `l`: a signature unlock at the first occurrence of the address, a
reference unlock to that first occurrence afterwards. -/
def specBlockAt (signer : BuilderAddress → Nat × Nat)
    (l : List BuilderAddress) (j : Nat) : BUnlockBlock :=
  if firstIdx l (l.getD j (BuilderAddress.ed25519 0)) = j then
    .signature (some (signer (l.getD j (BuilderAddress.ed25519 0))))
  else .reference (firstIdx l (l.getD j (BuilderAddress.ed25519 0)))

/-- The full unlock-block sequence the claim specifies for `l`. -/
def buildSpecBlocks (signer : BuilderAddress → Nat × Nat)
    (l : List BuilderAddress) : List BUnlockBlock :=
  (List.range l.length).map (specBlockAt signer l)

/-- A well-formed unlock block: a signature unlock with a present
signature, or a reference unlock. -/
def wellFormedBlock (b : BUnlockBlock) : Prop :=
  (∃ s, b = BUnlockBlock.signature (some s)) ∨ ∃ p, b = BUnlockBlock.reference p

theorem firstIdx_append_left (a : BuilderAddress) :
    ∀ l₁ l₂ : List BuilderAddress, a ∈ l₁ → firstIdx (l₁ ++ l₂) a = firstIdx l₁ a := by
  intro l₁
  induction l₁ with
  | nil => intro l₂ h; simp at h
  | cons b t ih =>
    intro l₂ h
    by_cases hb : b = a
    · simp [firstIdx, hb]
    · have ht : a ∈ t := by
        rcases List.mem_cons.mp h with h' | h'
        · exact absurd h'.symm hb
        · exact h'
      simp [firstIdx, hb, ih l₂ ht]

theorem firstIdx_lt_length (a : BuilderAddress) :
    ∀ l : List BuilderAddress, a ∈ l → firstIdx l a < l.length := by
  intro l
  induction l with
  | nil => intro h; simp at h
  | cons b t ih =>
    intro h
    by_cases hb : b = a
    · simp [firstIdx, hb]
    · have ht : a ∈ t := by
        rcases List.mem_cons.mp h with h' | h'
        · exact absurd h'.symm hb
        · exact h'
      have := ih ht
      simp only [firstIdx, if_neg hb, List.length_cons]
      omega

theorem firstIdx_append_self (a : BuilderAddress) :
    ∀ l : List BuilderAddress, a ∉ l → firstIdx (l ++ [a]) a = l.length := by
  intro l
  induction l with
  | nil => simp [firstIdx]
  | cons b t ih =>
    intro h
    have hb : b ≠ a := fun hba => h (hba ▸ List.mem_cons_self b t)
    have ht : a ∉ t := fun hta => h (List.mem_cons_of_mem b hta)
    simp [firstIdx, hb, ih ht]

theorem getD_append_left_addr (d : BuilderAddress) :
    ∀ (l₁ l₂ : List BuilderAddress) (j : Nat), j < l₁.length →
      (l₁ ++ l₂).getD j d = l₁.getD j d := by
  intro l₁
  induction l₁ with
  | nil => intro l₂ j h; simp at h
  | cons b t ih =>
    intro l₂ j h
    match j with
    | 0 => rfl
    | k + 1 =>
      have : k < t.length := by simpa using h
      simpa [List.getD_cons_succ] using ih l₂ k this

theorem getD_snoc_self_addr (d a : BuilderAddress) :
    ∀ l : List BuilderAddress, (l ++ [a]).getD l.length d = a := by
  intro l
  induction l with
  | nil => rfl
  | cons b t ih => simpa [List.getD_cons_succ] using ih

theorem getD_mem_addr (d : BuilderAddress) :
    ∀ (l : List BuilderAddress) (j : Nat), j < l.length → l.getD j d ∈ l := by
  intro l
  induction l with
  | nil => intro j h; simp at h
  | cons b t ih =>
    intro j h
    match j with
    | 0 => simp [List.getD_cons_zero]
    | k + 1 =>
      have : k < t.length := by simpa using h
      simpa [List.getD_cons_succ] using List.mem_cons_of_mem b (ih k this)

theorem specBlockAt_append (signer : BuilderAddress → Nat × Nat)
    (l : List BuilderAddress) (a : BuilderAddress) (j : Nat) (h : j < l.length) :
    specBlockAt signer (l ++ [a]) j = specBlockAt signer l j := by
  have hgd := getD_append_left_addr (BuilderAddress.ed25519 0) l [a] j h
  have hx : l.getD j (BuilderAddress.ed25519 0) ∈ l := getD_mem_addr _ l j h
  have hfi := firstIdx_append_left (l.getD j (BuilderAddress.ed25519 0)) l [a] hx
  simp only [specBlockAt, hgd, hfi]

theorem buildSpecBlocks_snoc (signer : BuilderAddress → Nat × Nat)
    (l : List BuilderAddress) (a : BuilderAddress) :
    buildSpecBlocks signer (l ++ [a]) =
      buildSpecBlocks signer l ++ [specBlockAt signer (l ++ [a]) l.length] := by
  unfold buildSpecBlocks
  rw [List.length_append, List.length_singleton, List.range_succ, List.map_append]
  congr 1
  apply List.map_congr_left
  intro j hj
  exact specBlockAt_append signer l a j (List.mem_range.mp hj)

/-- The loop invariant of `Build`: after processing the prefix `pre`, the
index is its length, `sigBlockPos` maps exactly the seen addresses to their
first-occurrence positions, the unlock blocks are the specified ones, and
the signer has been invoked exactly once per distinct seen address. -/
def buildInv (signer : BuilderAddress → Nat × Nat)
    (pre : List BuilderAddress) (st : BuildState) : Prop :=
  st.idx = pre.length ∧
  (∀ a, alookup st.sigBlockPos a =
    if a ∈ pre then some (firstIdx pre a) else none) ∧
  st.blocks = buildSpecBlocks signer pre ∧
  st.calls.Nodup ∧ (∀ a, a ∈ st.calls ↔ a ∈ pre)

theorem processInputs_inv (signer : BuilderAddress → Nat × Nat) :
    ∀ (rest pre : List BuilderAddress) (st : BuildState),
    (∀ a ∈ rest, a.isEd25519 = true) → buildInv signer pre st →
    ∃ st', processInputs signer rest st = some st' ∧
      buildInv signer (pre ++ rest) st' := by
  intro rest
  induction rest with
  | nil => intro pre st _ hinv; exact ⟨st, rfl, by simpa using hinv⟩
  | cons a rest' ih =>
    intro pre st hed hinv
    obtain ⟨hidx, hmap, hblocks, hnodup, hcalls⟩ := hinv
    have hed' : ∀ b ∈ rest', b.isEd25519 = true := fun b hb => hed b (by simp [hb])
    cases hlk : alookup st.sigBlockPos a with
    | some pos =>
      have hmem : a ∈ pre ∧ pos = firstIdx pre a := by
        have := (hmap a).symm.trans hlk
        by_cases hp : a ∈ pre
        · simp [hp] at this; exact ⟨hp, this.symm⟩
        · simp [hp] at this
      obtain ⟨hapre, hpos⟩ := hmem
      have hinv' : buildInv signer (pre ++ [a])
          { st with idx := st.idx + 1, blocks := st.blocks ++ [.reference pos] } := by
        refine ⟨by simp [hidx], ?_, ?_, hnodup, ?_⟩
        · intro x
          rw [hmap x]
          by_cases hx : x ∈ pre
          · simp [hx, firstIdx_append_left x pre [a] hx]
          · have hxa : x ≠ a := fun hxe => hx (hxe ▸ hapre)
            have : x ∉ pre ++ [a] := by
              simp [List.mem_append, hx, hxa]
            simp [hx, this]
        · rw [hblocks, buildSpecBlocks_snoc]
          congr 1
          have hgd : (pre ++ [a]).getD pre.length (BuilderAddress.ed25519 0) = a :=
            getD_snoc_self_addr _ a pre
          have hfi : firstIdx (pre ++ [a]) a = firstIdx pre a :=
            firstIdx_append_left a pre [a] hapre
          have hlt : firstIdx pre a < pre.length := firstIdx_lt_length a pre hapre
          simp only [specBlockAt, hgd, hfi]
          rw [if_neg (by omega), hpos]
        · intro x
          rw [hcalls x]
          constructor
          · intro hx; exact List.mem_append_left _ hx
          · intro hx
            rcases List.mem_append.mp hx with hx' | hx'
            · exact hx'
            · simpa using (List.mem_singleton.mp hx') ▸ hapre
      obtain ⟨st', hrun, hinv''⟩ := ih (pre ++ [a]) _ hed' hinv'
      refine ⟨st', ?_, by simpa using hinv''⟩
      simpa [processInputs, hlk] using hrun
    | none =>
      have hapre : a ∉ pre := by
        intro hp
        have := (hmap a).symm.trans hlk
        simp [hp] at this
      have haed : a.isEd25519 = true := hed a (by simp)
      match a, haed with
      | .ed25519 pk, _ =>
        have hinv' : buildInv signer (pre ++ [.ed25519 pk])
            { idx := st.idx + 1,
              sigBlockPos := (.ed25519 pk, st.idx) :: st.sigBlockPos,
              blocks := st.blocks ++ [.signature (some (signer (.ed25519 pk)))],
              calls := st.calls ++ [.ed25519 pk] } := by
          refine ⟨by simp [hidx], ?_, ?_, ?_, ?_⟩
          · intro x
            by_cases hxa : x = BuilderAddress.ed25519 pk
            · rw [hxa]
              have hfi : firstIdx (pre ++ [BuilderAddress.ed25519 pk])
                  (BuilderAddress.ed25519 pk) = pre.length :=
                firstIdx_append_self _ pre hapre
              simp [alookup, hfi, hidx]
            · have hne : BuilderAddress.ed25519 pk ≠ x := fun he => hxa he.symm
              have hstep : alookup ((BuilderAddress.ed25519 pk, st.idx) ::
                  st.sigBlockPos) x = alookup st.sigBlockPos x := by
                simp [alookup, hne]
              rw [hstep, hmap x]
              by_cases hx : x ∈ pre
              · simp [hx, firstIdx_append_left x pre [BuilderAddress.ed25519 pk] hx]
              · have hnm : x ∉ pre ++ [BuilderAddress.ed25519 pk] := by
                  simp [List.mem_append, hx, hxa]
                simp [hx, hnm]
          · rw [hblocks, buildSpecBlocks_snoc]
            congr 1
            have hgd : (pre ++ [BuilderAddress.ed25519 pk]).getD pre.length
                (BuilderAddress.ed25519 0) = BuilderAddress.ed25519 pk :=
              getD_snoc_self_addr _ _ pre
            have hfi : firstIdx (pre ++ [BuilderAddress.ed25519 pk])
                (BuilderAddress.ed25519 pk) = pre.length :=
              firstIdx_append_self _ pre hapre
            simp [specBlockAt, hgd, hfi]
          · have hanotc : BuilderAddress.ed25519 pk ∉ st.calls := by
              intro hc
              exact hapre ((hcalls _).mp hc)
            simpa using List.Nodup.append hnodup (by simp)
              (by simpa [List.disjoint_singleton] using hanotc)
          · intro x
            simp only [List.mem_append, List.mem_singleton, hcalls x]
        obtain ⟨st', hrun, hinv''⟩ := ih (pre ++ [.ed25519 pk]) _ hed' hinv'
        refine ⟨st', ?_, by simpa using hinv''⟩
        simpa [processInputs, hlk] using hrun

/-! ### Claim C7: reference-unlock deduplication -/

/-- Claim C7: over any (sorted) input address list with implemented signing
(Ed25519), `Build` emits for each position a signature unlock the first
time an address is encountered and a reference unlock pointing at the first
occurrence afterwards, invoking the signer once per distinct address; and
in particular for inputs `[A, B, A]` with distinct owner addresses the
blocks are `[Signature(A), Signature(B), Reference(0)]` with the signer
invoked exactly twice. -/
theorem build_reference_unlock_dedup :
    (∀ (signer : BuilderAddress → Nat × Nat) (l : List BuilderAddress),
      (∀ a ∈ l, a.isEd25519 = true) →
      ∃ st, buildUnlockBlocks signer l = some st ∧
        st.blocks = buildSpecBlocks signer l ∧
        st.calls.Nodup ∧ (∀ a, a ∈ st.calls ↔ a ∈ l)) ∧
    (∀ (signer : BuilderAddress → Nat × Nat) (pk1 pk2 : Nat), pk1 ≠ pk2 →
      buildUnlockBlocks signer
        [.ed25519 pk1, .ed25519 pk2, .ed25519 pk1] =
      some { idx := 3,
             sigBlockPos := [(.ed25519 pk2, 1), (.ed25519 pk1, 0)],
             blocks := [.signature (some (signer (.ed25519 pk1))),
                        .signature (some (signer (.ed25519 pk2))),
                        .reference 0],
             calls := [.ed25519 pk1, .ed25519 pk2] }) := by
  constructor
  · intro signer l hed
    have hinit : buildInv signer []
        { idx := 0, sigBlockPos := [], blocks := [], calls := [] } := by
      refine ⟨rfl, ?_, rfl, List.nodup_nil, by simp⟩
      intro a; simp [alookup]
    obtain ⟨st', hrun, hinv⟩ := processInputs_inv signer l [] _ hed hinit
    exact ⟨st', hrun, hinv.2.2.1, hinv.2.2.2.1, hinv.2.2.2.2⟩
  · intro signer pk1 pk2 h
    have h21 : pk2 ≠ pk1 := fun he => h he.symm
    simp [buildUnlockBlocks, processInputs, alookup, h, h21]

/-- Witness for C7: the `[A, B, A]` example at concrete addresses and a
concrete signer. -/
theorem build_reference_unlock_dedup_witness :
    (∃ st, buildUnlockBlocks (fun _ => (9, 9))
        [.ed25519 1, .ed25519 2, .ed25519 1] = some st ∧
      st.blocks = buildSpecBlocks (fun _ => (9, 9))
        [.ed25519 1, .ed25519 2, .ed25519 1] ∧
      st.calls.Nodup ∧
      (∀ a, a ∈ st.calls ↔ a ∈ [BuilderAddress.ed25519 1,
        BuilderAddress.ed25519 2, BuilderAddress.ed25519 1])) ∧
    buildUnlockBlocks (fun _ => (9, 9))
        [.ed25519 1, .ed25519 2, .ed25519 1] =
      some { idx := 3,
             sigBlockPos := [(.ed25519 2, 1), (.ed25519 1, 0)],
             blocks := [.signature (some (9, 9)), .signature (some (9, 9)),
                        .reference 0],
             calls := [.ed25519 1, .ed25519 2] } :=
  ⟨build_reference_unlock_dedup.1 _ _ (by decide),
   build_reference_unlock_dedup.2 _ 1 2 (by decide)⟩

/-! ### Claim C9: unimplemented signing is fatal, never skipped -/

theorem alookup_mem {κ ν : Type} [DecidableEq κ] :
    ∀ (m : List (κ × ν)) (k : κ) (v : ν), alookup m k = some v → (k, v) ∈ m := by
  intro m
  induction m with
  | nil => intro k v h; simp [alookup] at h
  | cons p rest ih =>
    intro k v h
    obtain ⟨k', v'⟩ := p
    by_cases hk : k' = k
    · subst hk
      simp [alookup] at h
      simp [h]
    · simp [alookup, hk] at h
      exact List.mem_cons_of_mem _ (ih k v h)

theorem processInputs_wots_none (signer : BuilderAddress → Nat × Nat) :
    ∀ (rest : List BuilderAddress) (st : BuildState),
    (∀ p ∈ st.sigBlockPos, p.1.isEd25519 = true) →
    (∃ a ∈ rest, a.isWots = true) →
    processInputs signer rest st = none := by
  intro rest
  induction rest with
  | nil => intro st _ hw; simp at hw
  | cons a rest' ih =>
    intro st hkeys hw
    match a with
    | .wots w =>
      cases hlk : alookup st.sigBlockPos (.wots w) with
      | some pos =>
        have := hkeys _ (alookup_mem st.sigBlockPos _ pos hlk)
        simp [BuilderAddress.isEd25519] at this
      | none => simp [processInputs, hlk]
    | .ed25519 pk =>
      have hw' : ∃ b ∈ rest', b.isWots = true := by
        obtain ⟨b, hb, hbw⟩ := hw
        rcases List.mem_cons.mp hb with hb' | hb'
        · subst hb'; simp [BuilderAddress.isWots] at hbw
        · exact ⟨b, hb', hbw⟩
      cases hlk : alookup st.sigBlockPos (.ed25519 pk) with
      | some pos =>
        have hrec := ih
          { st with
            idx := st.idx + 1
            blocks := st.blocks ++ [.reference pos] }
          hkeys hw'
        simpa [processInputs, hlk] using hrec
      | none =>
        have hkeys' : ∀ p ∈ (BuilderAddress.ed25519 pk, st.idx) :: st.sigBlockPos,
            p.1.isEd25519 = true := by
          intro p hp
          rcases List.mem_cons.mp hp with hp' | hp'
          · subst hp'; rfl
          · exact hkeys p hp'
        have hrec := ih
          { idx := st.idx + 1
            sigBlockPos := (.ed25519 pk, st.idx) :: st.sigBlockPos
            blocks := st.blocks ++ [.signature (some (signer (.ed25519 pk)))]
            calls := st.calls ++ [.ed25519 pk] }
          hkeys' hw'
        simpa [processInputs, hlk] using hrec

theorem processInputs_blocks_shape (signer : BuilderAddress → Nat × Nat) :
    ∀ (rest : List BuilderAddress) (st out : BuildState),
    (∀ b ∈ st.blocks, wellFormedBlock b) →
    processInputs signer rest st = some out →
    ∀ b ∈ out.blocks, wellFormedBlock b := by
  intro rest
  induction rest with
  | nil =>
    intro st out hst hrun
    simp [processInputs] at hrun
    exact hrun ▸ hst
  | cons a rest' ih =>
    intro st out hst hrun
    cases hlk : alookup st.sigBlockPos a with
    | some pos =>
      refine ih _ out ?_ (by simpa [processInputs, hlk] using hrun)
      intro b hb
      rcases List.mem_append.mp hb with hb' | hb'
      · exact hst b hb'
      · exact Or.inr ⟨pos, List.mem_singleton.mp hb'⟩
    | none =>
      match a with
      | .wots w => simp [processInputs, hlk] at hrun
      | .ed25519 pk =>
        refine ih _ out ?_ (by simpa [processInputs, hlk] using hrun)
        intro b hb
        rcases List.mem_append.mp hb with hb' | hb'
        · exact hst b hb'
        · exact Or.inl ⟨signer (.ed25519 pk), List.mem_singleton.mp hb'⟩

/-- Claim C9: an input owned by an address variant with no implemented
signing strategy (WOTS) makes `Build` fail fatally — the whole build
aborts, never silently skipping the input — and whenever the build
succeeds, every produced unlock block is either a reference unlock or a
signature unlock with a present signature (never missing or empty). -/
theorem build_unimplemented_signing_fatal :
    (∀ (signer : BuilderAddress → Nat × Nat) (l : List BuilderAddress),
      (∃ a ∈ l, a.isWots = true) → buildUnlockBlocks signer l = none) ∧
    (∀ (signer : BuilderAddress → Nat × Nat) (l : List BuilderAddress)
      (st : BuildState), buildUnlockBlocks signer l = some st →
      ∀ b ∈ st.blocks, wellFormedBlock b) := by
  constructor
  · intro signer l hw
    exact processInputs_wots_none signer l _ (by simp) hw
  · intro signer l st hrun
    exact processInputs_blocks_shape signer l _ st (by simp) hrun

/-- Witness for C9: a WOTS input aborts the build; a successful Ed25519
build yields only well-formed unlock blocks. -/
theorem build_unimplemented_signing_fatal_witness :
    buildUnlockBlocks (fun _ => (9, 9)) [BuilderAddress.wots 0] = none ∧
    (∀ b ∈ (BuildState.mk 1 [(BuilderAddress.ed25519 0, 0)]
        [BUnlockBlock.signature (some (9, 9))] [BuilderAddress.ed25519 0]).blocks,
      wellFormedBlock b) :=
  ⟨build_unimplemented_signing_fatal.1 _ _ ⟨BuilderAddress.wots 0, by simp, rfl⟩,
   build_unimplemented_signing_fatal.2 (fun _ => (9, 9)) [BuilderAddress.ed25519 0]
     _ (by decide)⟩

/-! ### Claim C8: canonicalization sort of inputs and outputs

`Build` canonicalizes with `sort.Sort(SortedSerializables(...))`. The
comparator orders elements by their serialized bytes
(`bytes.Compare(iData, jData) < 0`); an element is modelled as its
serialized byte string plus a tag recording its original position (the tag
is never compared — it only witnesses object identity). `sort.Sort` from
the Go standard library (the `go 1.16` toolchain series declared in
`go.mod`; the same code path exists through Go 1.18) handles a slice of at
most 12 elements by skipping the quicksort recursion and running a single
ShellSort pass with gap 6 — whose compared index pairs are disjoint at
these lengths — followed by an insertion sort. `sort.Sort` is documented
as not guaranteed stable, and the shell pass indeed reorders
equal-comparing elements. -/

/-- A sortable element: serialized bytes and the original position tag. -/
abbrev SElem : Type := List Nat × Nat

/-- The comparator of `SortedSerializables.Less` on modelled elements. -/
def ltBytes (a b : SElem) : Prop := bytesLt a.1 b.1 = true

instance : DecidableRel ltBytes :=
  fun a b => inferInstanceAs (Decidable (bytesLt a.1 b.1 = true))

/-- Weak byte order: `b` does not compare strictly before `a`. -/
def leBytes (a b : SElem) : Prop := bytesLt b.1 a.1 = false

instance : DecidableRel leBytes :=
  fun a b => inferInstanceAs (Decidable (bytesLt b.1 a.1 = false))

theorem bytesLt_asymm : ∀ x y : List Nat, bytesLt x y = true → bytesLt y x = false := by
  intro x
  induction x with
  | nil =>
    intro y h
    cases y with
    | nil => simp [bytesLt] at h
    | cons b bs => rfl
  | cons a as ih =>
    intro y h
    cases y with
    | nil => simp [bytesLt] at h
    | cons b bs =>
      simp only [bytesLt] at h ⊢
      split_ifs at h ⊢ with h1 h2 h3 h4 <;> first | rfl | omega | exact ih bs h

theorem bytesLt_trans :
    ∀ x y z : List Nat, bytesLt x y = true → bytesLt y z = true → bytesLt x z = true := by
  intro x
  induction x with
  | nil =>
    intro y z h1 h2
    match y, z with
    | _, [] => simp [bytesLt] at h2
    | _, c :: cs => rfl
  | cons a as ih =>
    intro y z h1 h2
    match y, z with
    | [], _ => simp [bytesLt] at h1
    | b :: bs, [] => simp [bytesLt] at h2
    | b :: bs, c :: cs =>
      simp only [bytesLt] at h1 h2 ⊢
      split_ifs at h1 h2 ⊢ with h3 h4 h5 h6 h7 h8 <;>
        first | rfl | omega | exact ih bs cs h1 h2

/-- One step of the gap-6 ShellSort pass: pairwise compare-and-swap between
position `i` of the second list and position `i` of the first (i.e. `i` and
`i − 6` of the slice) — disjoint pairs for at most 12 elements, so the pass
is the independent swap of each pair. -/
def zipSwap : List SElem → List SElem → List SElem × List SElem
  | x :: xs, y :: ys =>
    let p := zipSwap xs ys
    if bytesLt y.1 x.1 then (y :: p.1, x :: p.2) else (x :: p.1, y :: p.2)
  | xs, [] => (xs, [])
  | [], ys => ([], ys)

/-- The gap-6 ShellSort pass of Go's `sort.quickSort` on a short slice. -/
def shellPass6 (l : List SElem) : List SElem :=
  (zipSwap (l.take 6) (l.drop 6)).1 ++ (zipSwap (l.take 6) (l.drop 6)).2

/-- Go's `sort.insertionSort`: each element bubbles down through the sorted
prefix while strictly less than its predecessor, i.e. it is inserted before
the first strictly greater element — after any equal ones (a stable
insertion, modelled by `List.orderedInsert` with the strict order). -/
def goInsertionSort (l : List SElem) : List SElem :=
  l.foldl (fun acc x => List.orderedInsert ltBytes x acc) []

/-- Models `sort.Sort` on a slice of at most 12 elements (the path taken by
`Build`'s canonicalization for such transactions): the gap-6 shell pass,
then insertion sort. -/
def goSortSmall (l : List SElem) : List SElem :=
  goInsertionSort (shellPass6 l)

/-- Modelled from the spec: canonicalization stable-sorts by the serialized
byte representation, ties broken by original relative order (§4.6) — a
stable insertion sort under the weak byte order. -/
def stableSortBySerializedBytes (l : List SElem) : List SElem :=
  List.insertionSort leBytes l

theorem zipSwap_perm :
    ∀ xs ys : List SElem, ((zipSwap xs ys).1 ++ (zipSwap xs ys).2).Perm (xs ++ ys) := by
  intro xs
  induction xs with
  | nil => intro ys; cases ys <;> simp [zipSwap]
  | cons x xs ih =>
    intro ys
    cases ys with
    | nil => simp [zipSwap]
    | cons y ys =>
      have hmid1 : ((zipSwap xs ys).1 ++ x :: (zipSwap xs ys).2).Perm
          (x :: ((zipSwap xs ys).1 ++ (zipSwap xs ys).2)) := List.perm_middle
      have hmid2 : ((zipSwap xs ys).1 ++ y :: (zipSwap xs ys).2).Perm
          (y :: ((zipSwap xs ys).1 ++ (zipSwap xs ys).2)) := List.perm_middle
      have hrgt : (xs ++ y :: ys).Perm (y :: (xs ++ ys)) := List.perm_middle
      by_cases h : bytesLt y.1 x.1 = true
      · have t1 : (y :: ((zipSwap xs ys).1 ++ x :: (zipSwap xs ys).2)).Perm
            (y :: x :: ((zipSwap xs ys).1 ++ (zipSwap xs ys).2)) := hmid1.cons y
        have t2 : (y :: x :: ((zipSwap xs ys).1 ++ (zipSwap xs ys).2)).Perm
            (y :: x :: (xs ++ ys)) := ((ih ys).cons x).cons y
        have t3 := List.Perm.swap x y (xs ++ ys)
        have hgoal : ((y :: (zipSwap xs ys).1) ++ x :: (zipSwap xs ys).2).Perm
            (x :: y :: (xs ++ ys)) := (t1.trans t2).trans t3
        have hxy : ((x :: xs) ++ y :: ys).Perm (x :: y :: (xs ++ ys)) := hrgt.cons x
        simpa [zipSwap, h] using hgoal.trans hxy.symm
      · have t1 : (x :: ((zipSwap xs ys).1 ++ y :: (zipSwap xs ys).2)).Perm
            (x :: y :: ((zipSwap xs ys).1 ++ (zipSwap xs ys).2)) := hmid2.cons x
        have t2 : (x :: y :: ((zipSwap xs ys).1 ++ (zipSwap xs ys).2)).Perm
            (x :: y :: (xs ++ ys)) := ((ih ys).cons y).cons x
        have hgoal : ((x :: (zipSwap xs ys).1) ++ y :: (zipSwap xs ys).2).Perm
            (x :: y :: (xs ++ ys)) := t1.trans t2
        have hxy : ((x :: xs) ++ y :: ys).Perm (x :: y :: (xs ++ ys)) := hrgt.cons x
        simpa [zipSwap, h] using hgoal.trans hxy.symm

theorem shellPass6_perm (l : List SElem) : (shellPass6 l).Perm l := by
  have h := zipSwap_perm (l.take 6) (l.drop 6)
  simpa [shellPass6, List.take_append_drop] using h

theorem pairwise_orderedInsert (x : SElem) :
    ∀ acc : List SElem, acc.Pairwise leBytes →
      (List.orderedInsert ltBytes x acc).Pairwise leBytes := by
  intro acc
  induction acc with
  | nil => intro _; simp [List.orderedInsert]
  | cons b t ih =>
    intro hp
    obtain ⟨hbt, htp⟩ := List.pairwise_cons.mp hp
    by_cases hlt : ltBytes x b
    · rw [List.orderedInsert, if_pos hlt]
      refine List.pairwise_cons.mpr ⟨?_, hp⟩
      intro c hc
      rcases List.mem_cons.mp hc with rfl | hct
      · exact bytesLt_asymm _ _ hlt
      · have hbc : leBytes b c := hbt c hct
        by_contra hxc
        have hcx : bytesLt c.1 x.1 = true := by
          cases hv : bytesLt c.1 x.1 with
          | true => rfl
          | false => exact absurd hv hxc
        have : bytesLt c.1 b.1 = true := bytesLt_trans _ _ _ hcx hlt
        rw [hbc] at this
        exact Bool.false_ne_true this
    · rw [List.orderedInsert, if_neg hlt]
      refine List.pairwise_cons.mpr ⟨?_, ih htp⟩
      intro c hc
      rcases (List.mem_orderedInsert ltBytes).mp hc with rfl | hct
      · have : bytesLt c.1 b.1 = false := by
          cases hv : bytesLt c.1 b.1 with
          | false => rfl
          | true => exact absurd hv hlt
        exact this
      · exact hbt c hct

theorem goInsertionSort_perm_aux :
    ∀ (l acc : List SElem),
      (l.foldl (fun acc x => List.orderedInsert ltBytes x acc) acc).Perm (acc ++ l) := by
  intro l
  induction l with
  | nil => intro acc; simp
  | cons x t ih =>
    intro acc
    have h1 := ih (List.orderedInsert ltBytes x acc)
    have h2 : (List.orderedInsert ltBytes x acc ++ t).Perm ((x :: acc) ++ t) :=
      (List.perm_orderedInsert ltBytes x acc).append_right t
    have h3 : ((x :: acc) ++ t).Perm (acc ++ x :: t) := List.perm_middle.symm
    simpa using (h1.trans h2).trans h3

theorem goInsertionSort_sorted_aux :
    ∀ (l acc : List SElem), acc.Pairwise leBytes →
      (l.foldl (fun acc x => List.orderedInsert ltBytes x acc) acc).Pairwise leBytes := by
  intro l
  induction l with
  | nil => intro acc h; simpa using h
  | cons x t ih =>
    intro acc h
    exact ih (List.orderedInsert ltBytes x acc) (pairwise_orderedInsert x acc h)

/-- Claim C8 (amended): for the slice lengths on which the model is
`sort.Sort` (at most 12 elements), `Build`'s canonicalization produces a
permutation of the added elements ordered by ascending serialized bytes —
but the sort is *not* stable (see the counterexample), contrary to the
claim's tie-breaking clause. -/
theorem build_sort_canonical (l : List SElem) (h : l.length ≤ 12) :
    (goSortSmall l).Perm l ∧ (goSortSmall l).Pairwise leBytes := by
  constructor
  · have h1 := goInsertionSort_perm_aux (shellPass6 l) []
    simpa [goSortSmall, goInsertionSort] using h1.trans (shellPass6_perm l)
  · exact goInsertionSort_sorted_aux _ [] (by simp)

/-- Witness for C8's amended statement at the concrete 8-element list. -/
theorem build_sort_canonical_witness :
    (goSortSmall [([9], 0), ([1], 1), ([1], 2), ([5], 3), ([1], 4), ([1], 5),
        ([5], 6), ([1], 7)]).Perm
      [([9], 0), ([1], 1), ([1], 2), ([5], 3), ([1], 4), ([1], 5),
        ([5], 6), ([1], 7)] ∧
    (goSortSmall [([9], 0), ([1], 1), ([1], 2), ([5], 3), ([1], 4), ([1], 5),
        ([5], 6), ([1], 7)]).Pairwise leBytes :=
  build_sort_canonical _ (by decide)

/-- Counterexample to C8 as stated: eight outputs whose byte-identical
pair (serialized bytes `[5]`, original positions 3 and 6) is reordered by
the gap-6 shell pass of `sort.Sort` — position 6 ends up before position 3,
while the spec's stable sort keeps 3 before 6. The tie does not preserve
the original relative order. -/
theorem build_sort_not_stable :
    goSortSmall [([9], 0), ([1], 1), ([1], 2), ([5], 3), ([1], 4), ([1], 5),
        ([5], 6), ([1], 7)] =
      [([1], 1), ([1], 2), ([1], 4), ([1], 5), ([1], 7), ([5], 6), ([5], 3),
        ([9], 0)] ∧
    stableSortBySerializedBytes [([9], 0), ([1], 1), ([1], 2), ([5], 3),
        ([1], 4), ([1], 5), ([5], 6), ([1], 7)] =
      [([1], 1), ([1], 2), ([1], 4), ([1], 5), ([1], 7), ([5], 3), ([5], 6),
        ([9], 0)] ∧
    goSortSmall [([9], 0), ([1], 1), ([1], 2), ([5], 3), ([1], 4), ([1], 5),
        ([5], 6), ([1], 7)] ≠
      stableSortBySerializedBytes [([9], 0), ([1], 1), ([1], 2), ([5], 3),
        ([1], 4), ([1], 5), ([5], 6), ([1], 7)] := by
  refine ⟨by decide, by decide, by decide⟩
